import Mathlib

/-!
Verification of the welth transaction ledger core.

This file embeds, in Lean, the transaction/balance mutation logic of the
repository (the server actions `createTransaction`, `getTransaction`,
`updateTransaction`, `getUserTransactions`, `scanReceipt`, the pure helper
`calculateNextRecurringDate`, and the demo seeder `seedTransactions`), and
proves or refutes the stated properties of that logic.

Modelling conventions:
* Decimal amounts and balances are modelled as exact rationals (`ℚ`).
* The persistence layer is a record of lists (`DB`); Prisma `findFirst`
  becomes `List.find?`, `update` becomes a `List.map` rewrite, and the
  multi-statement `db.$transaction` batch becomes a single atomic state
  change (all of its writes appear together in the returned state, or the
  whole operation returns the unchanged input state).
* External effects are oracles passed in a context `Ctx`: the Clerk
  `auth()` result, the ArcJet decision, the id the database assigns to a
  freshly created row, and whether the atomic batch write fails.
* JavaScript `Date` values are calendar triples (year, 0-based month,
  day-of-month); `setDate`/`setMonth`/`setFullYear` overflow normalization
  is embedded by `normalizeDate`.
-/

namespace Welth

/-! ## JavaScript calendar dates -/

/-- A JavaScript `Date`, seen as the calendar triple it denotes:
`year`, 0-based `month` (0 = January .. 11 = December), 1-based `day`. -/
structure JSDate where
  year : Int
  month : Nat
  day : Nat
  deriving DecidableEq

/-- Gregorian leap-year test, as used by the JavaScript date model. -/
def isLeapYear (y : Int) : Bool :=
  (y % 4 == 0 && y % 100 != 0) || y % 400 == 0

/-- Length of 0-based month `m` of year `y` (February = month 1). -/
def daysInMonth (y : Int) (m : Nat) : Nat :=
  if m = 1 then (if isLeapYear y then 29 else 28)
  else if m = 3 ∨ m = 5 ∨ m = 8 ∨ m = 10 then 30
  else 31

/-- Day-overflow normalization used by JavaScript `Date` setters: while the
day exceeds the current month's length, subtract that length and move to
the following month.  The first argument is fuel; `d` units of fuel always
suffice because every step removes at least one day. -/
def normalizeAux : Nat → Int → Nat → Nat → JSDate
  | 0, y, m, d => ⟨y, m, d⟩
  | fuel + 1, y, m, d =>
    if daysInMonth y m < d then
      if m = 11 then normalizeAux fuel (y + 1) 0 (d - daysInMonth y m)
      else normalizeAux fuel y (m + 1) (d - daysInMonth y m)
    else ⟨y, m, d⟩

/-- Normalize the (possibly day-overflowed) triple `(y, m, d)` to a real
calendar date, the way a JavaScript `Date` setter would. -/
def normalizeDate (y : Int) (m : Nat) (d : Nat) : JSDate :=
  normalizeAux d y m d

/-- JavaScript `date.setDate(date.getDate() + n)`. -/
def setDatePlus (dt : JSDate) (n : Nat) : JSDate :=
  normalizeDate dt.year dt.month (dt.day + n)

/-- JavaScript `date.setMonth(date.getMonth() + 1)`: month rolls into the
next year at December, and a day-of-month too large for the target month
overflows into the following month. -/
def setMonthPlus1 (dt : JSDate) : JSDate :=
  if dt.month = 11 then normalizeDate (dt.year + 1) 0 dt.day
  else normalizeDate dt.year (dt.month + 1) dt.day

/-- JavaScript `date.setFullYear(date.getFullYear() + 1)`. -/
def setFullYearPlus1 (dt : JSDate) : JSDate :=
  normalizeDate (dt.year + 1) dt.month dt.day

/-- The recurring-interval enumeration of the transaction schema. -/
inductive RecurringInterval where
  | DAILY
  | WEEKLY
  | MONTHLY
  | YEARLY
  deriving DecidableEq

/-- Embedding of `calculateNextRecurringDate` from the actions module: a
`switch` over the interval applying the corresponding JavaScript date
setter to a copy of the start date. -/
def calculateNextRecurringDate (startDate : JSDate) (interval : RecurringInterval) : JSDate :=
  match interval with
  | .DAILY => setDatePlus startDate 1
  | .WEEKLY => setDatePlus startDate 7
  | .MONTHLY => setMonthPlus1 startDate
  | .YEARLY => setFullYearPlus1 startDate

/-- A calendar triple that denotes an actual date: month index in range and
day within the month. -/
def ValidDate (dt : JSDate) : Prop :=
  dt.month ≤ 11 ∧ 1 ≤ dt.day ∧ dt.day ≤ daysInMonth dt.year dt.month

instance (dt : JSDate) : Decidable (ValidDate dt) := by
  unfold ValidDate; infer_instance

/-- Modelled from the spec: the calendar successor of a date ("start + 1
day"): the next day of the same month, or the first day of the next month
(rolling into January of the next year after December). -/
def dateSucc (dt : JSDate) : JSDate :=
  if dt.day < daysInMonth dt.year dt.month then ⟨dt.year, dt.month, dt.day + 1⟩
  else if dt.month = 11 then ⟨dt.year + 1, 0, 1⟩
  else ⟨dt.year, dt.month + 1, 1⟩

/-! ## Data model and persistence layer -/

/-- Transaction type enumeration. -/
inductive TxType where
  | INCOME
  | EXPENSE
  deriving DecidableEq

/-- A user row: internal id plus the external (Clerk) identity reference. -/
structure User where
  id : Nat
  clerkUserId : String
  deriving DecidableEq

/-- An account row: id, owning user, current balance. -/
structure Account where
  id : Nat
  userId : Nat
  balance : ℚ
  deriving DecidableEq

/-- A transaction row, with the fields the actions module reads or
writes. -/
structure Transaction where
  id : Nat
  type : TxType
  amount : ℚ
  date : JSDate
  description : String
  category : String
  status : String
  isRecurring : Bool
  recurringInterval : Option RecurringInterval
  nextRecurringDate : Option JSDate
  userId : Nat
  accountId : Nat
  deriving DecidableEq

/-- The `data` payload submitted to `createTransaction` /
`updateTransaction`: every transaction field except the row id, the owner
id and the derived `nextRecurringDate`, which the action fills in. -/
structure TransactionInput where
  accountId : Nat
  type : TxType
  amount : ℚ
  date : JSDate
  description : String
  category : String
  status : String
  isRecurring : Bool
  recurringInterval : Option RecurringInterval
  deriving DecidableEq

/-- Database state seen by the actions module. -/
structure DB where
  users : List User
  accounts : List Account
  transactions : List Transaction
  deriving DecidableEq

/-- Per-request external context: the Clerk `auth()` result, the ArcJet
decision, the id the database will assign to a created row, and an oracle
telling whether the atomic `db.$transaction` batch fails (`some msg` means
the batch raises `msg` and none of its writes take effect). -/
structure Ctx where
  authUserId : Option String
  arcjetDenied : Bool
  arcjetRateLimit : Bool
  newTxId : Nat
  writeFailure : Option String
  deriving DecidableEq

/-- The uniform result shape mutation actions return:
`{ success, data?, error? }`. -/
structure ActionResult (α : Type) where
  success : Bool
  data : Option α
  error : Option String
  deriving DecidableEq

/-- `db.user.findFirst({ where: { clerkUserId } })`. -/
def findUser (db : DB) (clerkId : String) : Option User :=
  db.users.find? (fun u => u.clerkUserId == clerkId)

/-- `db.account.findFirst({ where: { id, userId } })`. -/
def findAccount (db : DB) (accountId userId : Nat) : Option Account :=
  db.accounts.find? (fun a => a.id == accountId && a.userId == userId)

/-- `db.transaction.findFirst({ where: { id, userId } })`. -/
def findTransaction (db : DB) (txId userId : Nat) : Option Transaction :=
  db.transactions.find? (fun t => t.id == txId && t.userId == userId)

/-- `db.account.update({ where: { id }, data: { balance: v } })`:
absolute overwrite of the stored balance. -/
def setAccountBalance (accounts : List Account) (accountId : Nat) (v : ℚ) :
    List Account :=
  accounts.map (fun a => if a.id == accountId then { a with balance := v } else a)

/-- `db.account.update({ where: { id }, data: { balance: { increment: d } } })`:
relative increment of the stored balance. -/
def incAccountBalance (accounts : List Account) (accountId : Nat) (d : ℚ) :
    List Account :=
  accounts.map (fun a => if a.id == accountId then { a with balance := a.balance + d } else a)

/-- `db.transaction.update({ where: { id, userId }, data: ... })`: replace
the matching row by `t`. -/
def replaceTransaction (txns : List Transaction) (txId userId : Nat)
    (t : Transaction) : List Transaction :=
  txns.map (fun x => if x.id == txId && x.userId == userId then t else x)

/-- The balance the store holds for account `accountId` (first row with
that id), if any. -/
def balanceOf (db : DB) (accountId : Nat) : Option ℚ :=
  (db.accounts.find? (fun a => a.id == accountId)).map Account.balance

/-! ## Transaction mutation and query actions -/

/-- The balance delta of a submitted (type, amount) pair:
`type === "EXPENSE" ? -amount : amount`. -/
def balanceChange (type : TxType) (amount : ℚ) : ℚ :=
  if type = TxType.EXPENSE then -amount else amount

/-- The `nextRecurringDate` value both mutation actions store:
`isRecurring && recurringInterval ? calculateNextRecurringDate(date, interval) : null`. -/
def computeNextRecurringDate (data : TransactionInput) : Option JSDate :=
  match data.isRecurring, data.recurringInterval with
  | true, some interval => some (calculateNextRecurringDate data.date interval)
  | _, _ => none

/-- The row `db.transaction.create` inserts: the submitted fields, the
resolved internal user id, and the derived `nextRecurringDate`. -/
def mkNewTransaction (txId userId : Nat) (data : TransactionInput) : Transaction :=
  { id := txId
    type := data.type
    amount := data.amount
    date := data.date
    description := data.description
    category := data.category
    status := data.status
    isRecurring := data.isRecurring
    recurringInterval := data.recurringInterval
    nextRecurringDate := computeNextRecurringDate data
    userId := userId
    accountId := data.accountId }

/-- The row `db.transaction.update` writes: all submitted fields replace
the stored ones (including `accountId`), the row id and owner are kept,
and `nextRecurringDate` is recomputed from the submitted date/interval. -/
def mkUpdatedTransaction (original : Transaction) (data : TransactionInput) :
    Transaction :=
  { id := original.id
    type := data.type
    amount := data.amount
    date := data.date
    description := data.description
    category := data.category
    status := data.status
    isRecurring := data.isRecurring
    recurringInterval := data.recurringInterval
    nextRecurringDate := computeNextRecurringDate data
    userId := original.userId
    accountId := data.accountId }

/-- Body of `createTransaction` up to (and including) the atomic dual
write; every `throw` becomes an `Except.error` carrying the thrown
message. -/
def createTransactionCore (ctx : Ctx) (data : TransactionInput) (db : DB) :
    Except String (Transaction × DB) :=
  match ctx.authUserId with
  | none => .error "Unauthorized"
  | some _clerkId =>
    if ctx.arcjetDenied then
      if ctx.arcjetRateLimit then .error "Too many requests. Please try again later."
      else .error "Request blocked"
    else
      match findUser db _clerkId with
      | none => .error "User not found"
      | some user =>
        match findAccount db data.accountId user.id with
        | none => .error "Account not found"
        | some account =>
          match ctx.writeFailure with
          | some msg => .error msg
          | none =>
            .ok (mkNewTransaction ctx.newTxId user.id data,
              { db with
                transactions := db.transactions ++ [mkNewTransaction ctx.newTxId user.id data]
                accounts := setAccountBalance db.accounts data.accountId
                  (account.balance + balanceChange data.type data.amount) })

/-- `createTransaction`: the boundary `try/catch` around the core, turning
any raised error into the uniform `{ success: false, error }` result and
leaving the store untouched. -/
def createTransaction (ctx : Ctx) (data : TransactionInput) (db : DB) :
    ActionResult Transaction × DB :=
  match createTransactionCore ctx data db with
  | .ok (t, db') => (⟨true, some t, none⟩, db')
  | .error e => (⟨false, none, some e⟩, db)

/-- Body of `getTransaction`. -/
def getTransactionCore (ctx : Ctx) (txId : Nat) (db : DB) :
    Except String Transaction :=
  match ctx.authUserId with
  | none => .error "Unauthorized"
  | some _clerkId =>
    match findUser db _clerkId with
    | none => .error "User not found"
    | some user =>
      match findTransaction db txId user.id with
      | none => .error "Transaction not found"
      | some t => .ok t

/-- `getTransaction`: its `catch` block logs and re-raises, so the caller
sees exactly the core's outcome. -/
def getTransaction (ctx : Ctx) (txId : Nat) (db : DB) :
    Except String Transaction :=
  match getTransactionCore ctx txId db with
  | .ok t => .ok t
  | .error e => .error e

/-- Body of `updateTransaction` up to (and including) the atomic dual
write.  The balance write targets the *submitted* `data.accountId` and is
a relative increment by `netBalanceChange`; a missing target row makes the
whole batch fail (Prisma raises when `update`'s `where` matches nothing). -/
def updateTransactionCore (ctx : Ctx) (txId : Nat) (data : TransactionInput)
    (db : DB) : Except String (Transaction × DB) :=
  match ctx.authUserId with
  | none => .error "Unauthorized"
  | some _clerkId =>
    match findUser db _clerkId with
    | none => .error "User not found"
    | some user =>
      match findTransaction db txId user.id with
      | none => .error "Transaction not found"
      | some original =>
        match ctx.writeFailure with
        | some msg => .error msg
        | none =>
          if (db.accounts.find? (fun a => a.id == data.accountId)).isNone then
            .error "Record to update not found."
          else
            .ok (mkUpdatedTransaction original data,
              { db with
                transactions := replaceTransaction db.transactions txId user.id
                  (mkUpdatedTransaction original data)
                accounts := incAccountBalance db.accounts data.accountId
                  (balanceChange data.type data.amount
                    - balanceChange original.type original.amount) })

/-- `updateTransaction`: boundary `try/catch` as for `createTransaction`. -/
def updateTransaction (ctx : Ctx) (txId : Nat) (data : TransactionInput)
    (db : DB) : ActionResult Transaction × DB :=
  match updateTransactionCore ctx txId data db with
  | .ok (t, db') => (⟨true, some t, none⟩, db')
  | .error e => (⟨false, none, some e⟩, db)

/-- Descending comparison key used for `orderBy: { date: "desc" }`:
calendar order on (year, month, day). -/
def jsDateLe (a b : JSDate) : Bool :=
  if a.year ≠ b.year then decide (a.year < b.year)
  else if a.month ≠ b.month then decide (a.month < b.month)
  else decide (a.day ≤ b.day)

/-- Insert into a newest-first list, keeping it newest-first. -/
def insertByDateDesc (t : Transaction) : List Transaction → List Transaction
  | [] => [t]
  | h :: rest =>
    if jsDateLe t.date h.date then h :: insertByDateDesc t rest
    else t :: h :: rest

/-- Sort newest-first by date (`orderBy: { date: "desc" }`). -/
def sortByDateDesc : List Transaction → List Transaction
  | [] => []
  | h :: rest => insertByDateDesc h (sortByDateDesc rest)

/-- Body of `getUserTransactions`: the `findMany` with the owner filter,
an extra caller-supplied filter merged in, ordered newest-first. -/
def getUserTransactionsCore (ctx : Ctx) (query : Transaction → Bool) (db : DB) :
    Except String (List Transaction) :=
  match ctx.authUserId with
  | none => .error "Unauthorized"
  | some _clerkId =>
    match findUser db _clerkId with
    | none => .error "User not found"
    | some user =>
      .ok (sortByDateDesc
        (db.transactions.filter (fun t => t.userId == user.id && query t)))

/-- `getUserTransactions`: its `catch` block returns the uniform
`{ success: false, error }` result (it does not re-raise). -/
def getUserTransactions (ctx : Ctx) (query : Transaction → Bool) (db : DB) :
    ActionResult (List Transaction) :=
  match getUserTransactionsCore ctx query db with
  | .ok ts => ⟨true, some ts, none⟩
  | .error e => ⟨false, none, some e⟩

/-! ## Receipt extraction adapter -/

/-- The structured fields `scanReceipt` extracts from the model response
(after the JSON parse and field conversions). -/
structure ReceiptData where
  amount : ℚ
  date : Int
  description : String
  category : String
  merchantName : String
  deriving DecidableEq

/-- The backtick character, used by markdown code fences. -/
def fenceChar : Char := Char.ofNat 96

/-- Drop one optional `json` tag and one optional newline, as the fence
regex does right after a fence. -/
def stripFenceTail (l : List Char) : List Char :=
  let l₁ := if l.take 4 = ['j', 's', 'o', 'n'] then l.drop 4 else l
  if l₁.take 1 = ['\n'] then l₁.drop 1 else l₁

/-- Remove every markdown code fence (three backticks, optionally followed
by `json` and a newline), as `text.replace(/fence(json)?\n?/g, "")`
does.  Fuel-based; the input length is always enough fuel. -/
def stripFencesAux : Nat → List Char → List Char
  | 0, l => l
  | fuel + 1, l =>
    if l.take 3 = [fenceChar, fenceChar, fenceChar] then
      stripFencesAux fuel (stripFenceTail (l.drop 3))
    else
      match l with
      | [] => []
      | c :: rest => c :: stripFencesAux fuel rest

/-- JavaScript `String.prototype.trim`. -/
def jsTrim (l : List Char) : List Char :=
  ((l.dropWhile Char.isWhitespace).reverse.dropWhile Char.isWhitespace).reverse

/-- `text.replace(/fence(json)?\n?/g, "").trim()` applied to the model's
response text. -/
def cleanReceiptText (s : String) : String :=
  String.mk (jsTrim (stripFencesAux s.length s.data))

/-- Body of `scanReceipt`.  `modelResponse` is the external generative
call's outcome (`Except.error` for any transport/model failure, `Except.ok
text` for a textual response); `parseJson` abstracts `JSON.parse` plus the
field conversions (`none` exactly when `JSON.parse` throws).  An
unparseable cleaned response raises "Invalid receipt format". -/
def scanReceiptCore (modelResponse : Except String String)
    (parseJson : String → Option ReceiptData) : Except String ReceiptData :=
  match modelResponse with
  | .error e => .error e
  | .ok text =>
    match parseJson (cleanReceiptText text) with
    | some d => .ok d
    | none => .error "Invalid receipt format"

/-- `scanReceipt`: the outer `catch` replaces *any* error raised in its
body — including the inner "Invalid receipt format" — with the generic
"Failed to process receipt". -/
def scanReceipt (modelResponse : Except String String)
    (parseJson : String → Option ReceiptData) : Except String ReceiptData :=
  match scanReceiptCore modelResponse parseJson with
  | .ok d => .ok d
  | .error _ => .error "Failed to process receipt"

/-! ## Demo seeder (`actions/seed.js`)

The seeder lives in its own module and works directly with day-granular
timestamps (`subDays(new Date(), i)`), so its dates are embedded as
absolute day numbers (`Int`), and its rows keep the string ids the source
hard-codes.  `Math.random()` is an external effect: it is modelled as an
input stream `rng : Nat → ℚ` of values in `[0, 1)`, consumed in call
order. -/

/-- The hard-coded target account id. -/
def ACCOUNT_ID : String := "8e9de477-116a-4394-9d9f-c295813af632"

/-- The hard-coded target user id. -/
def USER_ID : String := "2817d31d-5dfc-4059-9c71-5c4becacb5c4"

/-- A transaction row as the seeder inserts it (date = absolute day
number). -/
structure SeedTx where
  type : TxType
  amount : ℚ
  description : String
  date : Int
  category : String
  status : String
  userId : String
  accountId : String
  deriving DecidableEq

/-- An account row as the seeder sees it. -/
structure SeedAccount where
  id : String
  userId : String
  balance : ℚ
  deriving DecidableEq

/-- Database state seen by the seeder. -/
structure SeedDB where
  accounts : List SeedAccount
  transactions : List SeedTx
  deriving DecidableEq

/-- The seeder's return shape. -/
structure SeedResult where
  success : Bool
  transactionsCreated : Option Nat
  balanceUpdated : Option ℚ
  error : Option String
  deriving DecidableEq

/-- One entry of the `CATEGORIES` configuration: name and amount range. -/
structure SeedCategory where
  name : String
  lo : ℚ
  hi : ℚ
  deriving DecidableEq

/-- `CATEGORIES.INCOME`. -/
def incomeCategories : List SeedCategory :=
  [⟨"salary", 5000, 8000⟩,
   ⟨"freelance", 1000, 3000⟩,
   ⟨"investments", 500, 2000⟩,
   ⟨"other-income", 100, 1000⟩]

/-- `CATEGORIES.EXPENSE`. -/
def expenseCategories : List SeedCategory :=
  [⟨"housing", 1000, 2000⟩,
   ⟨"transportation", 100, 500⟩,
   ⟨"groceries", 200, 600⟩,
   ⟨"utilities", 100, 300⟩,
   ⟨"entertainment", 50, 200⟩,
   ⟨"food", 50, 150⟩,
   ⟨"shopping", 100, 500⟩,
   ⟨"healthcare", 100, 1000⟩,
   ⟨"education", 200, 1000⟩,
   ⟨"travel", 500, 2000⟩]

/-- `CATEGORIES[type]`. -/
def categoriesFor (type : TxType) : List SeedCategory :=
  match type with
  | .INCOME => incomeCategories
  | .EXPENSE => expenseCategories

/-- JavaScript `Number(x.toFixed(2))` for the non-negative amounts the
seeder produces: round to two decimals. -/
def jsToFixed2 (q : ℚ) : ℚ :=
  ((⌊q * 100 + 1 / 2⌋ : Int) : ℚ) / 100

/-- `getRandomAmount(min, max)` with `r` the consumed `Math.random()`
value. -/
def getRandomAmount (r lo hi : ℚ) : ℚ :=
  jsToFixed2 (r * (hi - lo) + lo)

/-- `getRandomCategory(type)` with `rIdx`, `rAmt` the two consumed
`Math.random()` values (category pick, then amount). -/
def getRandomCategory (rIdx rAmt : ℚ) (type : TxType) : String × ℚ :=
  let cats := categoriesFor type
  let cat := cats.getD (⌊rIdx * cats.length⌋).toNat ⟨"", 0, 0⟩
  (cat.name, getRandomAmount rAmt cat.lo cat.hi)

/-- One iteration of the inner `for (j = 0; ...)` loop body: build the
row and its signed amount, consuming the three `Math.random()` values at
stream positions `k`, `k + 1`, `k + 2` (type, category pick, amount).
The stored `amount` is `Math.abs(signedAmount)`. -/
def seedTxAt (rng : Nat → ℚ) (k : Nat) (date : Int) : SeedTx × ℚ :=
  let type := if rng k < 2 / 5 then TxType.INCOME else TxType.EXPENSE
  let pick := getRandomCategory (rng (k + 1)) (rng (k + 2)) type
  let signedAmount := if type = TxType.INCOME then pick.2 else -pick.2
  ({ type := type
     amount := |signedAmount|
     description :=
       (if type = TxType.INCOME then "Received " else "Paid for ") ++ pick.1
     date := date
     category := pick.1
     status := "COMPLETED"
     userId := USER_ID
     accountId := ACCOUNT_ID },
   signedAmount)

/-- The inner `for (j = 0; j < transactionsPerDay; j++)` loop:
generate `n` transactions for day `date`, consuming three random values
per transaction starting at stream position `k`.  Returns the rows, the
accumulated signed balance change, and the next stream position. -/
def genOneDay (rng : Nat → ℚ) (date : Int) :
    Nat → Nat → List SeedTx × ℚ × Nat
  | 0, k => ([], 0, k)
  | n + 1, k =>
    ((seedTxAt rng k date).1 :: (genOneDay rng date n (k + 3)).1,
     (seedTxAt rng k date).2 + (genOneDay rng date n (k + 3)).2.1,
     (genOneDay rng date n (k + 3)).2.2)

/-- The outer `for (i = 90; i >= 0; i--)` loop over the listed day
offsets: each day consumes one random value for `transactionsPerDay =
floor(random * 3) + 1`, then generates that day's rows.  Returns one row
list per day (in loop order), the accumulated signed balance change, and
the next stream position. -/
def genDays (rng : Nat → ℚ) (today : Int) :
    List Nat → Nat → List (List SeedTx) × ℚ × Nat
  | [], k => ([], 0, k)
  | i :: rest, k =>
    let cnt := (⌊rng k * 3⌋).toNat + 1
    let day := genOneDay rng (today - (i : Int)) cnt (k + 1)
    let restDays := genDays rng today rest day.2.2
    (day.1 :: restDays.1, day.2.1 + restDays.2.1, restDays.2.2)

/-- The day offsets the outer loop visits: 90, 89, ..., 0. -/
def seedDayList : List Nat :=
  (List.range 91).map (fun idx => 90 - idx)

/-- The whole generation pass: per-day row lists and the net signed
balance change. -/
def generateSeedBatch (rng : Nat → ℚ) (today : Int) :
    List (List SeedTx) × ℚ :=
  let out := genDays rng today seedDayList 0
  (out.1, out.2.1)

/-- `seedTransactions`: verify the target account, generate the 91-day
batch, then atomically delete the account's prior transactions, insert
the batch, and set the balance to the pre-read balance plus the net
signed change.  The `catch` turns the missing-account throw into the
uniform failure result. -/
def seedTransactions (rng : Nat → ℚ) (today : Int) (db : SeedDB) :
    SeedResult × SeedDB :=
  match db.accounts.find? (fun a => a.id == ACCOUNT_ID && a.userId == USER_ID) with
  | none =>
    (⟨false, none, none,
      some ("Account " ++ ACCOUNT_ID ++ " not found for user " ++ USER_ID)⟩, db)
  | some account =>
    let batch := (generateSeedBatch rng today).1.flatten
    let newBalance := account.balance + (generateSeedBatch rng today).2
    (⟨true, some batch.length, some newBalance, none⟩,
     { accounts :=
         db.accounts.map
           (fun a => if a.id == ACCOUNT_ID then { a with balance := newBalance } else a)
       transactions :=
         db.transactions.filter (fun t => !(t.accountId == ACCOUNT_ID)) ++ batch })

/-- Signed value of a seeded row, as the balance accumulator counts it. -/
def seedSigned (t : SeedTx) : ℚ :=
  if t.type = TxType.INCOME then t.amount else -t.amount

/-- Net signed delta of a batch of seeded rows. -/
def seedNetDelta (l : List SeedTx) : ℚ :=
  (l.map seedSigned).sum

/-- The balance the seed store holds for account `aid`, if any. -/
def seedBalanceOf (db : SeedDB) (aid : String) : Option ℚ :=
  (db.accounts.find? (fun a => a.id == aid)).map SeedAccount.balance

/-- Verification predicate: `ds` is a well-formed generated batch for the
day `i` offsets before `today`: every row carries that date, targets the
hard-coded account, has a non-negative stored amount, and the batch holds
one to three rows. -/
def dayBatchOk (today : Int) (i : Nat) (ds : List SeedTx) : Prop :=
  (∀ t ∈ ds, t.date = today - (i : Int) ∧ t.accountId = ACCOUNT_ID ∧ 0 ≤ t.amount) ∧
  1 ≤ ds.length ∧ ds.length ≤ 3

/-! ## Concrete evaluation scenarios -/

/-- A request context with no resolvable identity. -/
def noAuthCtx : Ctx :=
  { authUserId := none, arcjetDenied := false, arcjetRateLimit := false
    newTxId := 0, writeFailure := none }

/-- An empty store. -/
def emptyDB : DB := ⟨[], [], []⟩

/-- Sample user resolved from Clerk id "clerk-1". -/
def wUser : User := ⟨1, "clerk-1"⟩

/-- Sample account #10 of user 1 holding 100. -/
def wAccount : Account := ⟨10, 1, 100⟩

/-- A second account #20 of user 1 holding 500. -/
def wAccount2 : Account := ⟨20, 1, 500⟩

/-- A stored $100 EXPENSE of user 1 on account #10. -/
def wTx : Transaction :=
  { id := 5, type := .EXPENSE, amount := 100, date := ⟨2024, 0, 10⟩
    description := "groceries", category := "groceries", status := "COMPLETED"
    isRecurring := false, recurringInterval := none, nextRecurringDate := none
    userId := 1, accountId := 10 }

/-- A transaction of a *different* user (user 2), id 99. -/
def wOtherTx : Transaction :=
  { id := 99, type := .INCOME, amount := 7, date := ⟨2024, 0, 11⟩
    description := "salary", category := "salary", status := "COMPLETED"
    isRecurring := false, recurringInterval := none, nextRecurringDate := none
    userId := 2, accountId := 30 }

/-- A fully authorized, non-limited context whose batch write succeeds. -/
def wCtx : Ctx :=
  { authUserId := some "clerk-1", arcjetDenied := false, arcjetRateLimit := false
    newTxId := 77, writeFailure := none }

/-- Sample store: one user, two accounts, two transactions. -/
def wDB : DB := ⟨[wUser], [wAccount, wAccount2], [wTx, wOtherTx]⟩

/-- Submitted input: a $30 INCOME on account #10. -/
def wInputIncome30 : TransactionInput :=
  { accountId := 10, type := .INCOME, amount := 30, date := ⟨2024, 1, 2⟩
    description := "gift", category := "other-income", status := "COMPLETED"
    isRecurring := false, recurringInterval := none }

/-- Submitted input: a $150 EXPENSE on account #10 (the edit of `wTx`). -/
def wInputExpense150 : TransactionInput :=
  { accountId := 10, type := .EXPENSE, amount := 150, date := ⟨2024, 0, 10⟩
    description := "groceries", category := "groceries", status := "COMPLETED"
    isRecurring := false, recurringInterval := none }

/-- Submitted input: a recurring daily $5 EXPENSE on account #10. -/
def wInputRecurring : TransactionInput :=
  { accountId := 10, type := .EXPENSE, amount := 5, date := ⟨2024, 0, 20⟩
    description := "coffee", category := "food", status := "COMPLETED"
    isRecurring := true, recurringInterval := some .DAILY }

/-- Submitted input: a $40 EXPENSE moved onto account #20. -/
def wInputMoved : TransactionInput :=
  { accountId := 20, type := .EXPENSE, amount := 40, date := ⟨2024, 0, 10⟩
    description := "groceries", category := "groceries", status := "COMPLETED"
    isRecurring := false, recurringInterval := none }

/-- A constant random stream with value one half. -/
def rngHalf : Nat → ℚ := fun _ => 1 / 2

/-- Seed store holding the hard-coded target account with balance 1000. -/
def wSeedDB : SeedDB :=
  ⟨[⟨ACCOUNT_ID, USER_ID, 1000⟩],
   [⟨.INCOME, 3, "old row", -5, "salary", "COMPLETED", USER_ID, ACCOUNT_ID⟩]⟩

/-! ## Supporting lemmas -/

lemma daysInMonth_ge (y : Int) (m : Nat) : 28 ≤ daysInMonth y m := by
  unfold daysInMonth
  split_ifs <;> omega

lemma daysInMonth_le (y : Int) (m : Nat) : daysInMonth y m ≤ 31 := by
  unfold daysInMonth
  split_ifs <;> omega

/-- The fuel argument of `normalizeAux` is irrelevant once it is at least
the day count. -/
lemma normalizeAux_fuel_irrel :
    ∀ (d f₁ f₂ : Nat) (y : Int) (m : Nat), 1 ≤ d → d ≤ f₁ → d ≤ f₂ →
      normalizeAux f₁ y m d = normalizeAux f₂ y m d := by
  intro d
  induction d using Nat.strong_induction_on with
  | _ d ih =>
    intro f₁ f₂ y m hd hf₁ hf₂
    obtain ⟨a, rfl⟩ : ∃ a, f₁ = a + 1 := ⟨f₁ - 1, by omega⟩
    obtain ⟨b, rfl⟩ : ∃ b, f₂ = b + 1 := ⟨f₂ - 1, by omega⟩
    simp only [normalizeAux]
    split
    · next hlt =>
      have hge := daysInMonth_ge y m
      split
      · exact ih (d - daysInMonth y m) (by omega) a b _ _ (by omega) (by omega) (by omega)
      · exact ih (d - daysInMonth y m) (by omega) a b _ _ (by omega) (by omega) (by omega)
    · rfl

/-- A triple already denoting a date normalizes to itself. -/
lemma normalizeDate_of_le (y : Int) (m : Nat) (d : Nat)
    (h1 : 1 ≤ d) (h2 : d ≤ daysInMonth y m) :
    normalizeDate y m d = ⟨y, m, d⟩ := by
  obtain ⟨e, rfl⟩ : ∃ e, d = e + 1 := ⟨d - 1, by omega⟩
  simp only [normalizeDate, normalizeAux]
  rw [if_neg (by omega)]

lemma dateSucc_mk (y : Int) (m d : Nat) :
    dateSucc ⟨y, m, d⟩
      = if d < daysInMonth y m then ⟨y, m, d + 1⟩
        else if m = 11 then ⟨y + 1, 0, 1⟩ else ⟨y, m + 1, 1⟩ := rfl

/-- One normalization step peeled off the front, for an overflowing day. -/
lemma normalizeDate_step (y : Int) (m : Nat) (d : Nat)
    (hd : daysInMonth y m < d) :
    normalizeDate y m d
      = if m = 11 then normalizeDate (y + 1) 0 (d - daysInMonth y m)
        else normalizeDate y (m + 1) (d - daysInMonth y m) := by
  have hge := daysInMonth_ge y m
  obtain ⟨a, ha⟩ : ∃ a, d = a + 1 := ⟨d - 1, by omega⟩
  subst ha
  simp only [normalizeDate, normalizeAux]
  rw [if_pos hd]
  by_cases hm11 : m = 11
  · rw [if_pos hm11, if_pos hm11]
    exact normalizeAux_fuel_irrel _ _ _ _ _ (by omega) (by omega) (by omega)
  · rw [if_neg hm11, if_neg hm11]
    exact normalizeAux_fuel_irrel _ _ _ _ _ (by omega) (by omega) (by omega)

/-- Adding one more overflow day moves the normalized date to its calendar
successor. -/
lemma normalizeDate_succ :
    ∀ (e : Nat), 1 ≤ e → ∀ (y : Int) (m : Nat), m ≤ 11 →
      normalizeDate y m (e + 1) = dateSucc (normalizeDate y m e) := by
  intro e
  induction e using Nat.strong_induction_on with
  | _ e ih =>
    intro he y m hm
    have hge := daysInMonth_ge y m
    have h31 := daysInMonth_le y m
    rcases lt_trichotomy e (daysInMonth y m) with hlt | heq | hgt
    · rw [normalizeDate_of_le y m e he (by omega),
        normalizeDate_of_le y m (e + 1) (by omega) (by omega), dateSucc_mk,
        if_pos hlt]
    · subst heq
      rw [normalizeDate_of_le y m (daysInMonth y m) he le_rfl, dateSucc_mk,
        if_neg (lt_irrefl _), normalizeDate_step y m _ (by omega)]
      have harith : daysInMonth y m + 1 - daysInMonth y m = 1 := by omega
      by_cases hm11 : m = 11
      · rw [if_pos hm11, if_pos hm11, harith,
          normalizeDate_of_le _ _ _ le_rfl (by have := daysInMonth_ge (y + 1) 0; omega)]
      · rw [if_neg hm11, if_neg hm11, harith,
          normalizeDate_of_le _ _ _ le_rfl (by have := daysInMonth_ge y (m + 1); omega)]
    · rw [normalizeDate_step y m e hgt, normalizeDate_step y m (e + 1) (by omega)]
      have harith : e + 1 - daysInMonth y m = (e - daysInMonth y m) + 1 := by omega
      by_cases hm11 : m = 11
      · rw [if_pos hm11, if_pos hm11, harith]
        exact ih (e - daysInMonth y m) (by omega) (by omega) (y + 1) 0 (by omega)
      · rw [if_neg hm11, if_neg hm11, harith]
        exact ih (e - daysInMonth y m) (by omega) (by omega) y (m + 1) (by omega)

/-- Iterated form of `normalizeDate_succ`. -/
lemma normalizeDate_add (y : Int) (m : Nat) (d n : Nat)
    (h1 : 1 ≤ d) (hm : m ≤ 11) :
    normalizeDate y m (d + n) = dateSucc^[n] (normalizeDate y m d) := by
  induction n with
  | zero => simp
  | succ n ihn =>
    have : d + (n + 1) = (d + n) + 1 := by omega
    rw [this, normalizeDate_succ (d + n) (by omega) y m hm, ihn,
      Function.iterate_succ_apply']

/-! ### Store helpers -/

/-- After an absolute balance write to id `aid`, the stored balance at
`aid` is the written value (provided some row with that id exists). -/
lemma find_setAccountBalance (accounts : List Account) (aid : Nat) (v : ℚ)
    (h : ∃ a ∈ accounts, a.id = aid) :
    ((setAccountBalance accounts aid v).find? (fun a => a.id == aid)).map
      Account.balance = some v := by
  induction accounts with
  | nil => simp at h
  | cons a rest ih =>
    rcases h with ⟨b, hb, hbid⟩
    by_cases ha : a.id = aid
    · have hcons : setAccountBalance (a :: rest) aid v
          = { a with balance := v } :: setAccountBalance rest aid v := by
        simp [setAccountBalance, ha]
      rw [hcons, List.find?_cons_of_pos _ (by simp [ha])]
      rfl
    · have hcons : setAccountBalance (a :: rest) aid v
          = a :: setAccountBalance rest aid v := by
        simp [setAccountBalance, ha]
      rw [hcons, List.find?_cons_of_neg _ (by simp [ha])]
      apply ih
      rcases List.mem_cons.mp hb with rfl | hb'
      · exact absurd hbid ha
      · exact ⟨b, hb', hbid⟩

/-- After a balance increment at id `aid`, the stored balance at `aid` is
the prior stored balance plus the increment. -/
lemma find_incAccountBalance (accounts : List Account) (aid : Nat) (d : ℚ) :
    ((incAccountBalance accounts aid d).find? (fun a => a.id == aid)).map
      Account.balance
      = ((accounts.find? (fun a => a.id == aid)).map Account.balance).map
          (fun b => b + d) := by
  induction accounts with
  | nil => simp [incAccountBalance]
  | cons a rest ih =>
    by_cases ha : a.id = aid
    · have hcons : incAccountBalance (a :: rest) aid d
          = { a with balance := a.balance + d } :: incAccountBalance rest aid d := by
        simp [incAccountBalance, ha]
      rw [hcons, List.find?_cons_of_pos _ (by simp [ha]),
        List.find?_cons_of_pos _ (by simp [ha])]
      rfl
    · have hcons : incAccountBalance (a :: rest) aid d
          = a :: incAccountBalance rest aid d := by
        simp [incAccountBalance, ha]
      rw [hcons, List.find?_cons_of_neg _ (by simp [ha]),
        List.find?_cons_of_neg _ (by simp [ha])]
      exact ih

/-- A balance increment at id `aid` leaves the row found for any other id
untouched. -/
lemma find_incAccountBalance_ne (accounts : List Account) (aid : Nat) (d : ℚ)
    (oid : Nat) (h : oid ≠ aid) :
    (incAccountBalance accounts aid d).find? (fun a => a.id == oid)
      = accounts.find? (fun a => a.id == oid) := by
  induction accounts with
  | nil => simp [incAccountBalance]
  | cons a rest ih =>
    by_cases ha : a.id = aid
    · have hcons : incAccountBalance (a :: rest) aid d
          = { a with balance := a.balance + d } :: incAccountBalance rest aid d := by
        simp [incAccountBalance, ha]
      have hno : ¬ a.id = oid := by omega
      rw [hcons, List.find?_cons_of_neg _ (by simp [hno]),
        List.find?_cons_of_neg _ (by simp [hno])]
      exact ih
    · have hcons : incAccountBalance (a :: rest) aid d
          = a :: incAccountBalance rest aid d := by
        simp [incAccountBalance, ha]
      by_cases ho : a.id = oid
      · rw [hcons, List.find?_cons_of_pos _ (by simp [ho]),
          List.find?_cons_of_pos _ (by simp [ho])]
      · rw [hcons, List.find?_cons_of_neg _ (by simp [ho]),
          List.find?_cons_of_neg _ (by simp [ho])]
        exact ih

/-! ### Characterization of the mutation cores -/

/-- What a successful `createTransaction` core run implies: every guard
passed, and the result is exactly the new row together with the store
carrying both atomic writes. -/
lemma createTransactionCore_ok {ctx : Ctx} {data : TransactionInput}
    {db : DB} {r : Transaction × DB}
    (h : createTransactionCore ctx data db = Except.ok r) :
    ∃ clerkId user account,
      ctx.authUserId = some clerkId ∧
      ctx.arcjetDenied = false ∧
      findUser db clerkId = some user ∧
      findAccount db data.accountId user.id = some account ∧
      ctx.writeFailure = none ∧
      r = (mkNewTransaction ctx.newTxId user.id data,
        { db with
          transactions := db.transactions ++ [mkNewTransaction ctx.newTxId user.id data]
          accounts := setAccountBalance db.accounts data.accountId
            (account.balance + balanceChange data.type data.amount) }) := by
  unfold createTransactionCore at h
  split at h
  · exact absurd h (by simp)
  · next clerkId hcu =>
    split at h
    · split at h <;> exact absurd h (by simp)
    · next hden =>
      split at h
      · exact absurd h (by simp)
      · next user huser =>
        split at h
        · exact absurd h (by simp)
        · next account hacct =>
          split at h
          · exact absurd h (by simp)
          · next hwf =>
            exact ⟨clerkId, user, account, hcu, by simpa using hden, huser, hacct,
              hwf, by injection h with h'; exact h'.symm⟩

/-- What a successful `updateTransaction` core run implies. -/
lemma updateTransactionCore_ok {ctx : Ctx} {txId : Nat}
    {data : TransactionInput} {db : DB} {r : Transaction × DB}
    (h : updateTransactionCore ctx txId data db = Except.ok r) :
    ∃ clerkId user original,
      ctx.authUserId = some clerkId ∧
      findUser db clerkId = some user ∧
      findTransaction db txId user.id = some original ∧
      ctx.writeFailure = none ∧
      r = (mkUpdatedTransaction original data,
        { db with
          transactions := replaceTransaction db.transactions txId user.id
            (mkUpdatedTransaction original data)
          accounts := incAccountBalance db.accounts data.accountId
            (balanceChange data.type data.amount
              - balanceChange original.type original.amount) }) := by
  unfold updateTransactionCore at h
  split at h
  · exact absurd h (by simp)
  · next clerkId hcu =>
    split at h
    · exact absurd h (by simp)
    · next user huser =>
      split at h
      · exact absurd h (by simp)
      · next original horig =>
        split at h
        · exact absurd h (by simp)
        · next hwf =>
          split at h
          · exact absurd h (by simp)
          · exact ⟨clerkId, user, original, hcu, huser, horig, hwf,
              by injection h with h'; exact h'.symm⟩

/-- A failed mutation leaves the store untouched. -/
lemma createTransaction_error_frame {ctx : Ctx} {data : TransactionInput}
    {db : DB} (h : (createTransaction ctx data db).1.success = false) :
    (createTransaction ctx data db).2 = db := by
  cases hc : createTransactionCore ctx data db with
  | error e => simp [createTransaction, hc]
  | ok r => simp [createTransaction, hc] at h

/-- A failed update leaves the store untouched. -/
lemma updateTransaction_error_frame {ctx : Ctx} {txId : Nat}
    {data : TransactionInput} {db : DB}
    (h : (updateTransaction ctx txId data db).1.success = false) :
    (updateTransaction ctx txId data db).2 = db := by
  cases hc : updateTransactionCore ctx txId data db with
  | error e => simp [updateTransaction, hc]
  | ok r => simp [updateTransaction, hc] at h

/-! ### Seeder generation facts -/

/-- Every configured category range is sound: non-negative lower bound not
above the upper bound. -/
lemma categoriesFor_ranges (type : TxType) :
    ∀ c ∈ categoriesFor type, 0 ≤ c.lo ∧ c.lo ≤ c.hi := by
  cases type <;> decide

/-- Rounding to two decimals preserves non-negativity. -/
lemma jsToFixed2_nonneg (q : ℚ) (h : 0 ≤ q) : 0 ≤ jsToFixed2 q := by
  unfold jsToFixed2
  have hfloor : (0 : Int) ≤ ⌊q * 100 + 1 / 2⌋ := by
    apply Int.floor_nonneg.mpr
    nlinarith
  positivity

/-- A random amount drawn from a sound range is non-negative. -/
lemma getRandomAmount_nonneg (r lo hi : ℚ) (hr : 0 ≤ r) (h1 : 0 ≤ lo)
    (h2 : lo ≤ hi) : 0 ≤ getRandomAmount r lo hi := by
  apply jsToFixed2_nonneg
  nlinarith

/-- The amount produced by `getRandomCategory` is non-negative. -/
lemma getRandomCategory_amount_nonneg (rIdx rAmt : ℚ) (type : TxType)
    (hr : 0 ≤ rAmt) : 0 ≤ (getRandomCategory rIdx rAmt type).2 := by
  unfold getRandomCategory
  have hcat : ∀ n : Nat,
      0 ≤ ((categoriesFor type).getD n ⟨"", 0, 0⟩).lo ∧
      ((categoriesFor type).getD n ⟨"", 0, 0⟩).lo
        ≤ ((categoriesFor type).getD n ⟨"", 0, 0⟩).hi := by
    intro n
    rw [List.getD_eq_getElem?_getD]
    cases hg : (categoriesFor type)[n]? with
    | none => simp
    | some c =>
      have hm : c ∈ categoriesFor type := List.getElem?_mem hg
      simpa [hg] using categoriesFor_ranges type c hm
  obtain ⟨hlo, hlohi⟩ := hcat (⌊rIdx * ((categoriesFor type).length : ℚ)⌋).toNat
  exact getRandomAmount_nonneg _ _ _ hr hlo hlohi

/-- Shape of one generated row: the requested date, the hard-coded
account and user, a non-negative stored amount, and a signed amount that
matches the row's own type/amount signing. -/
lemma seedTxAt_fields (rng : Nat → ℚ) (k : Nat) (date : Int)
    (hr : 0 ≤ rng (k + 2)) :
    (seedTxAt rng k date).1.date = date ∧
    (seedTxAt rng k date).1.accountId = ACCOUNT_ID ∧
    (seedTxAt rng k date).1.userId = USER_ID ∧
    0 ≤ (seedTxAt rng k date).1.amount ∧
    (seedTxAt rng k date).2 = seedSigned (seedTxAt rng k date).1 := by
  have hamt : ∀ ty, 0 ≤ (getRandomCategory (rng (k + 1)) (rng (k + 2)) ty).2 :=
    fun ty => getRandomCategory_amount_nonneg _ _ ty hr
  refine ⟨rfl, rfl, rfl, abs_nonneg _, ?_⟩
  by_cases hty : rng k < 2 / 5
  · simp only [seedTxAt, seedSigned, if_pos hty]
    simp [abs_of_nonneg (hamt TxType.INCOME)]
  · simp only [seedTxAt, seedSigned, if_neg hty]
    have hni : ¬ (TxType.EXPENSE = TxType.INCOME) := by simp
    rw [if_neg hni, if_neg hni, abs_neg, abs_of_nonneg (hamt TxType.EXPENSE)]

/-- Shape of one generated day: `n` rows, each well-formed for `date`,
with the accumulated change equal to the recomputed net signed delta. -/
lemma genOneDay_spec (rng : Nat → ℚ) (hr : ∀ n, 0 ≤ rng n) (date : Int) :
    ∀ (n k : Nat),
      (∀ t ∈ (genOneDay rng date n k).1,
        t.date = date ∧ t.accountId = ACCOUNT_ID ∧ 0 ≤ t.amount) ∧
      (genOneDay rng date n k).1.length = n ∧
      (genOneDay rng date n k).2.1 = seedNetDelta (genOneDay rng date n k).1 := by
  intro n
  induction n with
  | zero => intro k; simp [genOneDay, seedNetDelta]
  | succ n ihn =>
    intro k
    obtain ⟨ih1, ih2, ih3⟩ := ihn (k + 3)
    obtain ⟨hd, hacct, _huser, hamt, hsig⟩ := seedTxAt_fields rng k date (hr (k + 2))
    refine ⟨?_, ?_, ?_⟩
    · intro t ht
      rcases List.mem_cons.mp ht with rfl | ht'
      · exact ⟨hd, hacct, hamt⟩
      · exact ih1 t ht'
    · simp [genOneDay, ih2]
    · show (seedTxAt rng k date).2 + (genOneDay rng date n (k + 3)).2.1 = _
      rw [ih3, hsig]
      simp [seedNetDelta, genOneDay]

/-- Shape of the generated day batches: one well-formed batch per visited
day offset, with the accumulated change equal to the sum of the per-day
net deltas. -/
lemma genDays_spec (rng : Nat → ℚ) (hr : ∀ n, 0 ≤ rng n ∧ rng n < 1)
    (today : Int) :
    ∀ (days : List Nat) (k : Nat),
      List.Forall₂ (dayBatchOk today) days (genDays rng today days k).1 ∧
      (genDays rng today days k).2.1
        = ((genDays rng today days k).1.map seedNetDelta).sum := by
  intro days
  induction days with
  | nil => intro k; constructor <;> simp [genDays]
  | cons i rest ihd =>
    intro k
    obtain ⟨ihf, ihs⟩ := ihd (genOneDay rng (today - (i : Int))
      ((⌊rng k * 3⌋).toNat + 1) (k + 1)).2.2
    have hcnt : 1 ≤ (⌊rng k * 3⌋).toNat + 1 ∧ (⌊rng k * 3⌋).toNat + 1 ≤ 3 := by
      obtain ⟨h0, h1⟩ := hr k
      have hlt : ⌊rng k * 3⌋ < 3 := Int.floor_lt.mpr (by push_cast; nlinarith)
      have hge : (0 : Int) ≤ ⌊rng k * 3⌋ := Int.floor_nonneg.mpr (by nlinarith)
      omega
    obtain ⟨hday1, hday2, hday3⟩ :=
      genOneDay_spec rng (fun n => (hr n).1) (today - (i : Int))
        ((⌊rng k * 3⌋).toNat + 1) (k + 1)
    refine ⟨?_, ?_⟩
    · exact List.Forall₂.cons ⟨hday1, by rw [hday2]; exact hcnt.1,
        by rw [hday2]; exact hcnt.2⟩ ihf
    · show (genOneDay rng (today - (i : Int)) _ (k + 1)).2.1 + _ = _
      rw [hday3, ihs]
      simp [genDays]

/-- Every row of the flattened batches carries the date of one of the
visited day offsets (and the hard-coded account). -/
lemma forall₂_flatten_dates (today : Int) :
    ∀ {days : List Nat} {dss : List (List SeedTx)},
      List.Forall₂ (dayBatchOk today) days dss →
      ∀ t ∈ dss.flatten,
        ∃ i ∈ days, t.date = today - (i : Int) ∧ t.accountId = ACCOUNT_ID := by
  intro days dss h
  induction h with
  | nil => simp
  | cons hrel _hrest ihrest =>
    intro t ht
    rw [List.flatten_cons] at ht
    rcases List.mem_append.mp ht with htb | htrest
    · obtain ⟨hd, hacct, _⟩ := hrel.1 t htb
      exact ⟨_, List.mem_cons_self _ _, hd, hacct⟩
    · obtain ⟨i, hi, hrest'⟩ := ihrest t htrest
      exact ⟨i, List.mem_cons_of_mem _ hi, hrest'⟩

/-- How many flattened rows carry the date of a given visited day offset:
exactly that day's batch, so between one and three rows. -/
lemma flatten_filter_day (today : Int) :
    ∀ {days : List Nat} {dss : List (List SeedTx)},
      List.Forall₂ (dayBatchOk today) days dss → days.Nodup →
      ∀ i ∈ days,
        1 ≤ (dss.flatten.filter (fun t => t.date == today - (i : Int))).length ∧
        (dss.flatten.filter (fun t => t.date == today - (i : Int))).length ≤ 3 := by
  intro days dss h
  induction h with
  | nil => intro _ i hi; simp at hi
  | @cons j b as bs hrel hrest ihrest =>
    intro hnd i hi
    have hndtail : as.Nodup := (List.nodup_cons.mp hnd).2
    have hjtail : j ∉ as := (List.nodup_cons.mp hnd).1
    rw [List.flatten_cons, List.filter_append, List.length_append]
    rcases List.mem_cons.mp hi with rfl | hi'
    · have hfb : b.filter (fun t => t.date == today - (i : Int)) = b := by
        apply List.filter_eq_self.mpr
        intro t ht
        simpa using (hrel.1 t ht).1
      have hfr : bs.flatten.filter (fun t => t.date == today - (i : Int)) = [] := by
        apply List.filter_eq_nil_iff.mpr
        intro t ht
        obtain ⟨i', hi', hdate, _⟩ := forall₂_flatten_dates today hrest t ht
        have : i' ≠ i := fun he => hjtail (he ▸ hi')
        simp only [beq_iff_eq, hdate]
        omega
      rw [hfb, hfr]
      simpa using ⟨hrel.2.1, hrel.2.2⟩
    · have hfb : b.filter (fun t => t.date == today - (i : Int)) = [] := by
        apply List.filter_eq_nil_iff.mpr
        intro t ht
        have hij : i ≠ j := fun he => hjtail (he ▸ hi')
        have hdate := (hrel.1 t ht).1
        simp only [beq_iff_eq, hdate]
        omega
      rw [hfb]
      simpa using ihrest hndtail i hi'

/-- The visited day offsets are exactly 0..90, each once. -/
lemma mem_seedDayList (i : Nat) : i ∈ seedDayList ↔ i ≤ 90 := by
  simp only [seedDayList, List.mem_map, List.mem_range]
  constructor
  · rintro ⟨idx, hidx, rfl⟩; omega
  · intro hle; exact ⟨90 - i, by omega, by omega⟩

lemma seedDayList_nodup : seedDayList.Nodup := by decide

/-- The net signed delta of the flattened batches is the sum of the
per-day net deltas. -/
lemma seedNetDelta_flatten (dss : List (List SeedTx)) :
    seedNetDelta dss.flatten = (dss.map seedNetDelta).sum := by
  induction dss with
  | nil => simp [seedNetDelta]
  | cons ds rest ih =>
    simp only [List.flatten_cons, List.map_cons, List.sum_cons, ← ih]
    simp [seedNetDelta]

/-- After the seeder's absolute balance write, the stored balance at the
target id is the written value. -/
lemma seedFind_set (accounts : List SeedAccount) (aid : String) (v : ℚ)
    (h : ∃ a ∈ accounts, a.id = aid) :
    ((accounts.map (fun a => if a.id == aid then { a with balance := v } else a)).find?
      (fun a => a.id == aid)).map SeedAccount.balance = some v := by
  induction accounts with
  | nil => simp at h
  | cons a rest ih =>
    rcases h with ⟨b, hb, hbid⟩
    by_cases ha : a.id = aid
    · have hcons : (a :: rest).map (fun a => if a.id == aid then { a with balance := v } else a)
          = { a with balance := v }
            :: rest.map (fun a => if a.id == aid then { a with balance := v } else a) := by
        simp [ha]
      rw [hcons, List.find?_cons_of_pos _ (by simp [ha])]
      rfl
    · have hcons : (a :: rest).map (fun a => if a.id == aid then { a with balance := v } else a)
          = a :: rest.map (fun a => if a.id == aid then { a with balance := v } else a) := by
        simp [ha]
      rw [hcons, List.find?_cons_of_neg _ (by simp [ha])]
      apply ih
      rcases List.mem_cons.mp hb with rfl | hb'
      · exact absurd hbid ha
      · exact ⟨b, hb', hbid⟩

/-! ## Claim theorems -/

/-- C1: for every transaction input with a non-negative amount, the
balance delta is `-amount` for EXPENSE and `+amount` for INCOME, and
after a successful `createTransaction` the account's stored balance
equals its prior balance plus that delta. -/
theorem createTransaction_balance_delta
    (ctx : Ctx) (data : TransactionInput) (db : DB) (cu : String)
    (user : User) (account : Account)
    (hamt : 0 ≤ data.amount)
    (hauth : ctx.authUserId = some cu)
    (huser : findUser db cu = some user)
    (hacct : findAccount db data.accountId user.id = some account)
    (hsucc : (createTransaction ctx data db).1.success = true) :
    balanceChange TxType.EXPENSE data.amount = -data.amount ∧
    balanceChange TxType.INCOME data.amount = data.amount ∧
    balanceOf (createTransaction ctx data db).2 data.accountId
      = some (account.balance + balanceChange data.type data.amount) := by
  refine ⟨by simp [balanceChange], by simp [balanceChange], ?_⟩
  cases hc : createTransactionCore ctx data db with
  | error e => simp [createTransaction, hc] at hsucc
  | ok r =>
    obtain ⟨cu', user', account', hcu', _hden, huser', hacct', _hwf, hr⟩ :=
      createTransactionCore_ok hc
    rw [hauth] at hcu'
    injection hcu' with h1
    subst h1
    rw [huser] at huser'
    injection huser' with h2
    subst h2
    rw [hacct] at hacct'
    injection hacct' with h3
    subst h3
    subst hr
    have hdb2 : (createTransaction ctx data db).2
        = { db with
            transactions := db.transactions
              ++ [mkNewTransaction ctx.newTxId user.id data]
            accounts := setAccountBalance db.accounts data.accountId
              (account.balance + balanceChange data.type data.amount) } := by
      simp [createTransaction, hc]
    rw [hdb2]
    unfold balanceOf
    dsimp only
    apply find_setAccountBalance
    have hmem : account ∈ db.accounts := List.mem_of_find?_eq_some hacct
    have hpred := List.find?_some hacct
    simp only [Bool.and_eq_true, beq_iff_eq] at hpred
    exact ⟨account, hmem, hpred.1⟩

/-- C1 witness: creating a $30 INCOME on the sample account holding 100
succeeds and stores balance 100 + 30. -/
theorem createTransaction_balance_delta_witness :
    0 ≤ wInputIncome30.amount ∧
    balanceOf (createTransaction wCtx wInputIncome30 wDB).2 wInputIncome30.accountId
      = some (wAccount.balance
          + balanceChange wInputIncome30.type wInputIncome30.amount) ∧
    wAccount.balance + balanceChange wInputIncome30.type wInputIncome30.amount
      = 130 :=
  ⟨by norm_num [wInputIncome30],
   (createTransaction_balance_delta wCtx wInputIncome30 wDB "clerk-1" wUser wAccount
      (by norm_num [wInputIncome30]) rfl rfl rfl rfl).2.2,
   by simp [wInputIncome30, wAccount, balanceChange]; norm_num⟩

/-- C2: `updateTransaction` changes the target account balance by the
relative increment `netDelta = newDelta - oldDelta`, computed from the
stored transaction's prior type/amount and the submitted type/amount,
whatever balance is stored at write time. -/
theorem updateTransaction_net_increment
    (ctx : Ctx) (txId : Nat) (data : TransactionInput) (db : DB)
    (cu : String) (user : User) (original : Transaction) (b : ℚ)
    (hauth : ctx.authUserId = some cu)
    (huser : findUser db cu = some user)
    (horig : findTransaction db txId user.id = some original)
    (hbal : balanceOf db data.accountId = some b)
    (hsucc : (updateTransaction ctx txId data db).1.success = true) :
    balanceOf (updateTransaction ctx txId data db).2 data.accountId
      = some (b + (balanceChange data.type data.amount
          - balanceChange original.type original.amount)) := by
  cases hc : updateTransactionCore ctx txId data db with
  | error e => simp [updateTransaction, hc] at hsucc
  | ok r =>
    obtain ⟨cu', user', original', hcu', huser', horig', _hwf, hr⟩ :=
      updateTransactionCore_ok hc
    rw [hauth] at hcu'
    injection hcu' with h1
    subst h1
    rw [huser] at huser'
    injection huser' with h2
    subst h2
    rw [horig] at horig'
    injection horig' with h3
    subst h3
    subst hr
    have hdb2 : (updateTransaction ctx txId data db).2
        = { db with
            transactions := replaceTransaction db.transactions txId user.id
              (mkUpdatedTransaction original data)
            accounts := incAccountBalance db.accounts data.accountId
              (balanceChange data.type data.amount
                - balanceChange original.type original.amount) } := by
      simp [updateTransaction, hc]
    rw [hdb2]
    unfold balanceOf
    dsimp only
    rw [find_incAccountBalance]
    unfold balanceOf at hbal
    rw [hbal]
    rfl

/-- C2 witness: editing the stored $100 EXPENSE into a $150 EXPENSE on
the same account holding 100 leaves the balance at 100 - 50. -/
theorem updateTransaction_net_increment_witness :
    balanceOf (updateTransaction wCtx 5 wInputExpense150 wDB).2
        wInputExpense150.accountId
      = some (100 + (balanceChange wInputExpense150.type wInputExpense150.amount
          - balanceChange wTx.type wTx.amount)) ∧
    (100 : ℚ) + (balanceChange wInputExpense150.type wInputExpense150.amount
        - balanceChange wTx.type wTx.amount) = 100 - 50 :=
  ⟨updateTransaction_net_increment wCtx 5 wInputExpense150 wDB "clerk-1" wUser wTx 100
      rfl rfl rfl rfl rfl,
   by norm_num [wInputExpense150, wTx, balanceChange]⟩

/-- C3: both mutation operations either leave the store untouched (and
report failure) or report success with the transaction-row write and the
account-balance write landed together — never one without the other. -/
theorem mutation_atomic_dual_write (ctx : Ctx) (data : TransactionInput)
    (db : DB) (txId : Nat) (udata : TransactionInput) :
    ((createTransaction ctx data db).1.success = false ∧
        (createTransaction ctx data db).2 = db ∨
      (createTransaction ctx data db).1.success = true ∧
        ∃ t v, (createTransaction ctx data db).2
          = { db with
              transactions := db.transactions ++ [t]
              accounts := setAccountBalance db.accounts data.accountId v }) ∧
    ((updateTransaction ctx txId udata db).1.success = false ∧
        (updateTransaction ctx txId udata db).2 = db ∨
      (updateTransaction ctx txId udata db).1.success = true ∧
        ∃ t uid net, (updateTransaction ctx txId udata db).2
          = { db with
              transactions := replaceTransaction db.transactions txId uid t
              accounts := incAccountBalance db.accounts udata.accountId net }) := by
  constructor
  · cases hc : createTransactionCore ctx data db with
    | error e =>
      exact Or.inl ⟨by simp [createTransaction, hc], by simp [createTransaction, hc]⟩
    | ok r =>
      obtain ⟨cu, user, account, _, _, _, _, _, hr⟩ := createTransactionCore_ok hc
      subst hr
      exact Or.inr ⟨by simp [createTransaction, hc],
        mkNewTransaction ctx.newTxId user.id data,
        account.balance + balanceChange data.type data.amount,
        by simp [createTransaction, hc]⟩
  · cases hc : updateTransactionCore ctx txId udata db with
    | error e =>
      exact Or.inl ⟨by simp [updateTransaction, hc], by simp [updateTransaction, hc]⟩
    | ok r =>
      obtain ⟨cu, user, original, _, _, _, _, hr⟩ := updateTransactionCore_ok hc
      subst hr
      exact Or.inr ⟨by simp [updateTransaction, hc],
        mkUpdatedTransaction original udata, user.id,
        balanceChange udata.type udata.amount
          - balanceChange original.type original.amount,
        by simp [updateTransaction, hc]⟩

/-- C4: the transaction row written by `createTransaction` or
`updateTransaction` carries a non-null `nextRecurringDate` exactly when
the submitted input has `isRecurring` true and a recurring interval set. -/
theorem written_nextRecurringDate_iff (ctx : Ctx) (data : TransactionInput)
    (db : DB) (txId : Nat) (t : Transaction)
    (h : (createTransaction ctx data db).1.data = some t ∨
         (updateTransaction ctx txId data db).1.data = some t) :
    (t.nextRecurringDate ≠ none ↔
      data.isRecurring = true ∧ data.recurringInterval ≠ none) := by
  have hkey : t.nextRecurringDate = computeNextRecurringDate data := by
    rcases h with h | h
    · cases hc : createTransactionCore ctx data db with
      | error e => simp [createTransaction, hc] at h
      | ok r =>
        obtain ⟨_, user, _, _, _, _, _, _, hr⟩ := createTransactionCore_ok hc
        subst hr
        simp only [createTransaction, Option.some.injEq, hc] at h
        rw [← h]
        rfl
    · cases hc : updateTransactionCore ctx txId data db with
      | error e => simp [updateTransaction, hc] at h
      | ok r =>
        obtain ⟨_, user, original, _, _, _, _, hr⟩ := updateTransactionCore_ok hc
        subst hr
        simp only [updateTransaction, Option.some.injEq, hc] at h
        rw [← h]
        rfl
  rw [hkey]
  cases hrec : data.isRecurring <;> cases hint : data.recurringInterval <;>
    simp [computeNextRecurringDate, hrec, hint]

/-- C4 witness: the row created from a recurring daily input carries a
non-null `nextRecurringDate`. -/
theorem written_nextRecurringDate_iff_witness :
    (mkNewTransaction 77 1 wInputRecurring).nextRecurringDate ≠ none ↔
      wInputRecurring.isRecurring = true ∧
      wInputRecurring.recurringInterval ≠ none :=
  written_nextRecurringDate_iff wCtx wInputRecurring wDB 0
    (mkNewTransaction 77 1 wInputRecurring) (Or.inl rfl)

/-- C5 counterexample: `calculateNextRecurringDate` applied to
2024-01-31 (month index 0) with MONTHLY yields 2024-03-02 (month index
2), not a date in February (month index 1): the JavaScript `setMonth`
day-overflow rolls past February. -/
theorem calculateNextRecurringDate_jan31_monthly_march :
    calculateNextRecurringDate ⟨2024, 0, 31⟩ .MONTHLY = ⟨2024, 2, 2⟩ ∧
    (calculateNextRecurringDate ⟨2024, 0, 31⟩ .MONTHLY).month ≠ 1 := by
  constructor
  · rfl
  · decide

/-- C5 amended: DAILY advances to the calendar successor, WEEKLY to the
seventh successor; MONTHLY moves to the next month preserving the
day-of-month whenever that day exists there, and YEARLY to the next year
likewise; when the day does not exist in the target month, JavaScript
`Date` normalization rolls the overflow into the following month, so
2024-01-31 with MONTHLY yields 2024-03-02 (a March date, not February). -/
theorem calculateNextRecurringDate_spec :
    (∀ dt : JSDate, ValidDate dt →
        calculateNextRecurringDate dt .DAILY = dateSucc dt) ∧
    (∀ dt : JSDate, ValidDate dt →
        calculateNextRecurringDate dt .WEEKLY = dateSucc^[7] dt) ∧
    (∀ dt : JSDate, ValidDate dt → dt.month ≠ 11 →
        dt.day ≤ daysInMonth dt.year (dt.month + 1) →
        calculateNextRecurringDate dt .MONTHLY = ⟨dt.year, dt.month + 1, dt.day⟩) ∧
    (∀ dt : JSDate, ValidDate dt → dt.month = 11 →
        calculateNextRecurringDate dt .MONTHLY = ⟨dt.year + 1, 0, dt.day⟩) ∧
    (∀ dt : JSDate, ValidDate dt → dt.day ≤ daysInMonth (dt.year + 1) dt.month →
        calculateNextRecurringDate dt .YEARLY = ⟨dt.year + 1, dt.month, dt.day⟩) ∧
    calculateNextRecurringDate ⟨2024, 0, 31⟩ .MONTHLY = ⟨2024, 2, 2⟩ := by
  refine ⟨?_, ?_, ?_, ?_, ?_, rfl⟩
  · rintro ⟨y, m, d⟩ ⟨hm, hd1, hd2⟩
    show setDatePlus ⟨y, m, d⟩ 1 = dateSucc ⟨y, m, d⟩
    unfold setDatePlus
    dsimp only
    rw [normalizeDate_succ d hd1 y m hm, normalizeDate_of_le y m d hd1 hd2]
  · rintro ⟨y, m, d⟩ ⟨hm, hd1, hd2⟩
    show setDatePlus ⟨y, m, d⟩ 7 = dateSucc^[7] ⟨y, m, d⟩
    unfold setDatePlus
    dsimp only
    rw [normalizeDate_add y m d 7 hd1 hm, normalizeDate_of_le y m d hd1 hd2]
  · rintro ⟨y, m, d⟩ ⟨_hm, hd1, _hd2⟩ hm11 hfits
    show setMonthPlus1 ⟨y, m, d⟩ = _
    unfold setMonthPlus1
    dsimp only
    rw [if_neg hm11, normalizeDate_of_le y (m + 1) d hd1 hfits]
  · rintro ⟨y, m, d⟩ ⟨_hm, hd1, hd2⟩ hm11
    subst hm11
    show setMonthPlus1 ⟨y, 11, d⟩ = _
    unfold setMonthPlus1
    dsimp only
    rw [if_pos rfl, normalizeDate_of_le (y + 1) 0 d hd1 (by
      dsimp only at hd2
      have h1 : daysInMonth y 11 = 31 := rfl
      have h2 : daysInMonth (y + 1) 0 = 31 := rfl
      omega)]
  · rintro ⟨y, m, d⟩ ⟨_hm, hd1, _hd2⟩ hfits
    show setFullYearPlus1 ⟨y, m, d⟩ = _
    unfold setFullYearPlus1
    dsimp only
    rw [normalizeDate_of_le (y + 1) m d hd1 hfits]

/-- C5 amended witness: the day after 2024-01-15. -/
theorem calculateNextRecurringDate_spec_witness :
    ValidDate ⟨2024, 0, 15⟩ ∧
    calculateNextRecurringDate ⟨2024, 0, 15⟩ .DAILY = dateSucc ⟨2024, 0, 15⟩ :=
  ⟨by decide, calculateNextRecurringDate_spec.1 ⟨2024, 0, 15⟩ (by decide)⟩

/-- C6: when every transaction with the requested id belongs to a user
other than the caller (covering both "does not exist" and "not yours"),
`getTransaction` raises and `updateTransaction` returns the same
"Transaction not found" failure, and the store is untouched — the other
user's data is neither returned nor modified. -/
theorem foreign_transaction_not_found
    (ctx : Ctx) (txId : Nat) (data : TransactionInput) (db : DB)
    (cu : String) (user : User)
    (hauth : ctx.authUserId = some cu)
    (huser : findUser db cu = some user)
    (hother : ∀ t ∈ db.transactions, t.id = txId → t.userId ≠ user.id) :
    getTransaction ctx txId db = .error "Transaction not found" ∧
    updateTransaction ctx txId data db
      = (⟨false, none, some "Transaction not found"⟩, db) := by
  have hnone : findTransaction db txId user.id = none := by
    unfold findTransaction
    rw [List.find?_eq_none]
    intro t ht
    simp only [Bool.and_eq_true, beq_iff_eq]
    exact fun hcon => hother t ht hcon.1 hcon.2
  constructor
  · simp [getTransaction, getTransactionCore, hauth, huser, hnone]
  · simp [updateTransaction, updateTransactionCore, hauth, huser, hnone]

/-- C6 witness: user 1 requesting transaction 99 (owned by user 2) gets
"Transaction not found" from both operations and the store is unchanged. -/
theorem foreign_transaction_not_found_witness :
    getTransaction wCtx 99 wDB = .error "Transaction not found" ∧
    updateTransaction wCtx 99 wInputIncome30 wDB
      = (⟨false, none, some "Transaction not found"⟩, wDB) :=
  foreign_transaction_not_found wCtx 99 wInputIncome30 wDB "clerk-1" wUser
    rfl rfl (by decide)

/-- C7 counterexample: `getUserTransactions` does not re-raise: on a
failing run (no identity) its core raises "Unauthorized", but the caller
receives the caught uniform `{ success: false, error }` result. -/
theorem getUserTransactions_catches_counterexample :
    getUserTransactionsCore noAuthCtx (fun _ => true) emptyDB
      = Except.error "Unauthorized" ∧
    getUserTransactions noAuthCtx (fun _ => true) emptyDB
      = ⟨false, none, some "Unauthorized"⟩ :=
  ⟨rfl, rfl⟩

/-- C7 amended: the mutation operations and `getUserTransactions` catch
every failure at the boundary and return the uniform
`{ success: false, error }` result with the store untouched, while
`getTransaction` re-raises its failures to the caller. -/
theorem error_boundary_shape (ctx : Ctx) (data : TransactionInput) (db : DB)
    (txId : Nat) (query : Transaction → Bool) :
    (∀ e, createTransactionCore ctx data db = .error e →
        createTransaction ctx data db = (⟨false, none, some e⟩, db)) ∧
    (∀ e, updateTransactionCore ctx txId data db = .error e →
        updateTransaction ctx txId data db = (⟨false, none, some e⟩, db)) ∧
    (∀ e, getUserTransactionsCore ctx query db = .error e →
        getUserTransactions ctx query db = ⟨false, none, some e⟩) ∧
    getTransaction ctx txId db = getTransactionCore ctx txId db := by
  refine ⟨?_, ?_, ?_, ?_⟩
  · intro e he; simp [createTransaction, he]
  · intro e he; simp [updateTransaction, he]
  · intro e he; simp [getUserTransactions, he]
  · cases h : getTransactionCore ctx txId db <;> simp [getTransaction, h]

/-- C7 amended witness: an unauthorized create returns the uniform
failure result with the empty store untouched. -/
theorem error_boundary_shape_witness :
    createTransaction noAuthCtx wInputIncome30 emptyDB
      = (⟨false, none, some "Unauthorized"⟩, emptyDB) :=
  (error_boundary_shape noAuthCtx wInputIncome30 emptyDB 0 (fun _ => true)).1
    "Unauthorized" rfl

/-- C8 counterexample: on an unparseable model response, `scanReceipt`
fails with the generic "Failed to process receipt", not with the distinct
"Invalid receipt format" the claim promises: the inner InvalidFormat
throw is swallowed by the outer catch. -/
theorem scanReceipt_masks_invalid_format :
    scanReceipt (Except.ok "this is not structured data") (fun _ => none)
      = Except.error "Failed to process receipt" ∧
    ("Failed to process receipt" : String) ≠ "Invalid receipt format" :=
  ⟨rfl, by decide⟩

/-- C8 amended: every `scanReceipt` failure — transport/model error or
unparseable (cleaned) response text alike — surfaces as the single
"Failed to process receipt" error; the "Invalid receipt format" error is
raised internally but never reaches the caller.  A parseable response
succeeds with the parsed fields. -/
theorem scanReceipt_failure_modes (modelResponse : Except String String)
    (parseJson : String → Option ReceiptData) :
    (∀ e, modelResponse = .error e →
        scanReceipt modelResponse parseJson
          = .error "Failed to process receipt") ∧
    (∀ text, modelResponse = .ok text →
        parseJson (cleanReceiptText text) = none →
        scanReceipt modelResponse parseJson
          = .error "Failed to process receipt") ∧
    (∀ text d, modelResponse = .ok text →
        parseJson (cleanReceiptText text) = some d →
        scanReceipt modelResponse parseJson = .ok d) := by
  refine ⟨?_, ?_, ?_⟩
  · rintro e rfl; rfl
  · rintro text rfl hp
    simp [scanReceipt, scanReceiptCore, hp]
  · rintro text d rfl hp
    simp [scanReceipt, scanReceiptCore, hp]

/-- C8 amended witness: a transport failure surfaces as the generic
error. -/
theorem scanReceipt_failure_modes_witness :
    scanReceipt (Except.error "network down") (fun _ => none)
      = .error "Failed to process receipt" :=
  (scanReceipt_failure_modes (Except.error "network down") (fun _ => none)).1
    "network down" rfl

/-- C9: a successful `seedTransactions` run deletes every transaction
previously referencing the target account, leaves exactly the freshly
generated batch there — 91 consecutive days (`today - 90 .. today`) with
one to three rows per day — and sets, in the same atomic batch, the
account balance to the pre-read stored balance plus the net signed delta
of the generated rows.  `Math.random()` is the input stream `rng` of
values in `[0, 1)`. -/
theorem seedTransactions_spec (rng : Nat → ℚ) (today : Int) (db : SeedDB)
    (account : SeedAccount)
    (hr : ∀ n, 0 ≤ rng n ∧ rng n < 1)
    (hacc : db.accounts.find? (fun a => a.id == ACCOUNT_ID && a.userId == USER_ID)
      = some account) :
    (seedTransactions rng today db).1.success = true ∧
    (seedTransactions rng today db).2.transactions
      = db.transactions.filter (fun t => !(t.accountId == ACCOUNT_ID))
        ++ (generateSeedBatch rng today).1.flatten ∧
    (∀ t ∈ (generateSeedBatch rng today).1.flatten,
      t.accountId = ACCOUNT_ID ∧ today - 90 ≤ t.date ∧ t.date ≤ today) ∧
    (∀ i : Nat, i ≤ 90 →
      1 ≤ ((generateSeedBatch rng today).1.flatten.filter
            (fun t => t.date == today - (i : Int))).length ∧
      ((generateSeedBatch rng today).1.flatten.filter
            (fun t => t.date == today - (i : Int))).length ≤ 3) ∧
    seedBalanceOf (seedTransactions rng today db).2 ACCOUNT_ID
      = some (account.balance
          + seedNetDelta (generateSeedBatch rng today).1.flatten) := by
  have hgen := genDays_spec rng hr today seedDayList 0
  have hforall : List.Forall₂ (dayBatchOk today) seedDayList
      (generateSeedBatch rng today).1 := hgen.1
  refine ⟨?_, ?_, ?_, ?_, ?_⟩
  · simp [seedTransactions, hacc]
  · simp [seedTransactions, hacc]
  · intro t ht
    obtain ⟨i, hi, hdate, hacct2⟩ := forall₂_flatten_dates today hforall t ht
    have hile := (mem_seedDayList i).mp hi
    refine ⟨hacct2, by omega, by omega⟩
  · intro i hile
    exact flatten_filter_day today hforall seedDayList_nodup i
      ((mem_seedDayList i).mpr hile)
  · have hmem : account ∈ db.accounts := List.mem_of_find?_eq_some hacc
    have hpred := List.find?_some hacc
    simp only [Bool.and_eq_true, beq_iff_eq] at hpred
    have hnet : (generateSeedBatch rng today).2
        = seedNetDelta (generateSeedBatch rng today).1.flatten := by
      rw [seedNetDelta_flatten]
      exact hgen.2
    simp only [seedTransactions, hacc]
    unfold seedBalanceOf
    dsimp only
    rw [← hnet]
    exact seedFind_set db.accounts ACCOUNT_ID _ ⟨account, hmem, hpred.1⟩

/-- C9 witness: seeding the sample store (target account holding 1000)
with a constant one-half random stream succeeds. -/
theorem seedTransactions_spec_witness :
    (seedTransactions rngHalf 0 wSeedDB).1.success = true :=
  (seedTransactions_spec rngHalf 0 wSeedDB ⟨ACCOUNT_ID, USER_ID, 1000⟩
    (fun _ => by norm_num [rngHalf]) rfl).1

/-- C10: `updateTransaction` applies its net balance delta to the account
named by the *submitted* input; when that differs from the stored
transaction's account, the original account's balance is left unchanged
(whether or not the operation succeeds). -/
theorem updateTransaction_original_account_frame
    (ctx : Ctx) (txId : Nat) (data : TransactionInput) (db : DB)
    (cu : String) (user : User) (original : Transaction)
    (hauth : ctx.authUserId = some cu)
    (huser : findUser db cu = some user)
    (horig : findTransaction db txId user.id = some original)
    (hne : data.accountId ≠ original.accountId) :
    balanceOf (updateTransaction ctx txId data db).2 original.accountId
      = balanceOf db original.accountId := by
  cases hc : updateTransactionCore ctx txId data db with
  | error e => simp [updateTransaction, hc]
  | ok r =>
    obtain ⟨cu', user', original', hcu', huser', horig', _hwf, hr⟩ :=
      updateTransactionCore_ok hc
    rw [hauth] at hcu'
    injection hcu' with h1
    subst h1
    rw [huser] at huser'
    injection huser' with h2
    subst h2
    rw [horig] at horig'
    injection horig' with h3
    subst h3
    subst hr
    have hdb2 : (updateTransaction ctx txId data db).2
        = { db with
            transactions := replaceTransaction db.transactions txId user.id
              (mkUpdatedTransaction original data)
            accounts := incAccountBalance db.accounts data.accountId
              (balanceChange data.type data.amount
                - balanceChange original.type original.amount) } := by
      simp [updateTransaction, hc]
    rw [hdb2]
    unfold balanceOf
    dsimp only
    rw [find_incAccountBalance_ne db.accounts data.accountId _
      original.accountId (Ne.symm hne)]

/-- C10 witness: moving the stored $100 EXPENSE (account #10) onto
account #20 leaves account #10's balance untouched. -/
theorem updateTransaction_original_account_frame_witness :
    balanceOf (updateTransaction wCtx 5 wInputMoved wDB).2 wTx.accountId
      = balanceOf wDB wTx.accountId :=
  updateTransaction_original_account_frame wCtx 5 wInputMoved wDB
    "clerk-1" wUser wTx rfl rfl rfl (by decide)

end Welth
